import Mathlib

/-!
Verification of the Distributed Inference Gateway against its
natural-language specification.

The Python sources are shallowly embedded: pure functions become Lean
functions, floats become rationals, Python dict lookups become association
lists, and effectful collaborators (the LLM providers, Redis, Docker,
subprocesses, wall-clock time) become explicit oracle parameters recording
the outcome of each external interaction.  Python truthiness of optional
strings (`if x:` on an `Optional[str]`) is modelled explicitly, since
`None` and `""` are both falsy.
-/

namespace Gateway

/-- Python truthiness of an `Optional[str]`: `None` and `""` are falsy. -/
def strTruthy : Option String → Bool
  | none => false
  | some s => !(s == "")

/-- Python `str.strip()`: drop leading and trailing whitespace.  Written
over the character list so that it evaluates by kernel reduction; it agrees
with `String.trim` on the whitespace classes that occur here. -/
def pyStrip (s : String) : String :=
  ⟨((s.data.dropWhile Char.isWhitespace).reverse.dropWhile Char.isWhitespace).reverse⟩

/-- Python `str.lower()`, written over the character list so that it
evaluates by kernel reduction. -/
def pyLower (s : String) : String := ⟨s.data.map Char.toLower⟩

/-! ## Data model (src/models/response.py) -/

/-- `CodeBlock` from src/models/response.py. -/
structure CodeBlock where
  language : String
  code : String
  line_start : Option Nat := none
  line_end : Option Nat := none
  deriving DecidableEq, Repr

/-- `ExecutionResult` from src/models/response.py.  `execution_time` is a
float in the source, modelled as a rational. -/
structure ExecutionResult where
  success : Bool
  exit_code : Int
  stdout : String
  stderr : String
  execution_time : ℚ
  error : Option String := none
  deriving DecidableEq, Repr

/-- `ModelResponse` from src/models/response.py.  The `datetime` timestamp
is modelled as rational seconds. -/
structure ModelResponse where
  model_name : String
  provider : String
  text : String
  code_blocks : List CodeBlock
  execution_results : List ExecutionResult
  latency : ℚ
  timestamp : ℚ
  error : Option String := none
  deriving DecidableEq, Repr

/-- `VerificationReport` from src/models/response.py.  The free-form
`details` dict carries no claim-relevant data and is omitted. -/
structure VerificationReport where
  verified : Bool
  consensus : Bool
  successful_executions : Nat
  total_executions : Nat
  synthesis_strategy : String
  deriving DecidableEq, Repr

/-! ## Verifier (src/judge/verifier.py) -/

namespace Verifier

/-- `Verifier.verify_execution`: success flag and a zero exit code. -/
def verify_execution (r : ExecutionResult) : Bool :=
  r.success && (r.exit_code == 0)

/-- `Verifier.score_result`.  The first branch is Python
`if model_response.error:` (truthiness), the second
`if not model_response.execution_results:`, then
`0.5 if model_response.text else 0.0`, then the base-plus-latency-bonus
formula with `min(1.0, ...)`. -/
def score_result (r : ModelResponse) : ℚ :=
  if strTruthy r.error then 0
  else if r.execution_results = [] then
    (if r.text ≠ "" then 1/2 else 0)
  else
    let total : Nat := r.execution_results.length
    let successful : Nat := (r.execution_results.filter verify_execution).length
    let base_score : ℚ := if 0 < total then (successful : ℚ) / (total : ℚ) else 0
    let latency_bonus : ℚ := max 0 (1/5 - r.latency / 100)
    min 1 (base_score + latency_bonus)

/-- The trimmed stdout of every successful execution, collected across all
responses in order, as in the loop of `Verifier.check_consensus`. -/
def successfulOutputs (responses : List ModelResponse) : List String :=
  responses.flatMap fun resp =>
    (resp.execution_results.filter verify_execution).map fun r => pyStrip r.stdout

/-- `Verifier.check_consensus`: fewer than two responses is no consensus;
otherwise collect the trimmed stdout of each successful execution, fail on
an empty collection, and require every output to equal the first. -/
def check_consensus (responses : List ModelResponse) : Bool :=
  if responses.length < 2 then false
  else
    match successfulOutputs responses with
    | [] => false
    | first :: rest => (first :: rest).all fun o => o == first

/-- `Verifier.count_successful_executions`: (successful, total) over every
execution result of every response. -/
def count_successful_executions (responses : List ModelResponse) : Nat × Nat :=
  responses.foldl
    (fun acc resp =>
      resp.execution_results.foldl
        (fun a r => (a.1 + (if verify_execution r then 1 else 0), a.2 + 1)) acc)
    (0, 0)

end Verifier

/-! ## Synthesizer (src/judge/synthesizer.py) -/

namespace Synthesizer

/-- One insertion step of a stable descending sort on scored responses:
the element moves past every entry with a score not below its own, so
equal scores keep their relative order. -/
def insertDesc (x : ModelResponse × ℚ) : List (ModelResponse × ℚ) → List (ModelResponse × ℚ)
  | [] => [x]
  | y :: ys => if x.2 > y.2 then x :: y :: ys else y :: insertDesc x ys

/-- `scored_responses.sort(key=lambda x: x[1], reverse=True)`: Python sorts
stably, so this is a stable descending sort by score. -/
def sortDesc (l : List (ModelResponse × ℚ)) : List (ModelResponse × ℚ) :=
  l.foldl (fun acc x => insertDesc x acc) []

/-- Follows the spec's words: the winning response is the argmax by score,
with ties broken by input order, so the earliest pair attaining the maximal
score is selected. -/
def firstArgmax : List (ModelResponse × ℚ) → Option (ModelResponse × ℚ)
  | [] => none
  | x :: xs =>
    some (match firstArgmax xs with
      | none => x
      | some y => if y.2 > x.2 then y else x)

/-- `Synthesizer.synthesize`.  The source scores every response, sorts the
scored list descending, takes the head as the selected response, and picks
the strategy by the first matching rule.  The unreachable empty-sort branch
mirrors the source's reliance on `scored_responses[0]` existing. -/
def synthesize (responses : List ModelResponse) (verify : Bool) :
    Option ModelResponse × VerificationReport :=
  if responses.isEmpty then
    (none,
     { verified := false, consensus := false, successful_executions := 0,
       total_executions := 0, synthesis_strategy := "no_responses" })
  else
    let counts := Verifier.count_successful_executions responses
    let has_consensus := Verifier.check_consensus responses
    let scored := responses.map fun r => (r, Verifier.score_result r)
    match sortDesc scored with
    | [] =>
      (none,
       { verified := false, consensus := false, successful_executions := 0,
         total_executions := 0, synthesis_strategy := "no_responses" })
    | (sel, best_score) :: _ =>
      let strategy :=
        if has_consensus then "consensus"
        else if best_score ≥ 8/10 then "high_confidence"
        else if best_score ≥ 1/2 then "best_available"
        else "fallback"
      (some sel,
       { verified := verify && decide (0 < counts.1), consensus := has_consensus,
         successful_executions := counts.1, total_executions := counts.2,
         synthesis_strategy := strategy })

end Synthesizer

/-! ## Orchestrator (src/orchestrator/inference_manager.py) -/

/-- The identity of one configured provider. -/
structure Provider where
  name : String
  model_name : String
  deriving DecidableEq, Repr

/-- The outcome of one awaited `provider.generate_completion` call inside
`asyncio.wait_for`: a result dict (its text and optional model field), an
`asyncio.TimeoutError`, or any other exception with its message. -/
inductive ProviderOutcome where
  | success (text : String) (model : Option String)
  | timeout
  | failure (msg : String)
  deriving DecidableEq, Repr

/-- `InferenceManager._run_provider_inference`: builds a `ModelResponse`
from the provider call's outcome.  `elapsed` is the measured wall-clock
latency and `now` the timestamp taken when the response is built; both
exception handlers return an error-tagged response instead of raising. -/
def runProviderInference (timeout : ℚ) (p : Provider) (o : ProviderOutcome)
    (elapsed now : ℚ) : ModelResponse :=
  match o with
  | .success text model =>
    { model_name := model.getD p.model_name, provider := p.name, text := text,
      code_blocks := [], execution_results := [], latency := elapsed,
      timestamp := now, error := none }
  | .timeout =>
    { model_name := p.model_name, provider := p.name, text := "",
      code_blocks := [], execution_results := [], latency := elapsed,
      timestamp := now,
      error := some ("Provider " ++ p.name ++ " timed out after " ++ toString timeout ++ "s") }
  | .failure msg =>
    { model_name := p.model_name, provider := p.name, text := "",
      code_blocks := [], execution_results := [], latency := elapsed,
      timestamp := now,
      error := some ("Provider " ++ p.name ++ " failed: " ++ msg) }

/-- The environment of one per-provider task: the provider plus the
external events its run observes. -/
structure ProviderTask where
  provider : Provider
  outcome : ProviderOutcome
  elapsed : ℚ
  now : ℚ
  deriving DecidableEq, Repr

/-- `InferenceManager.run_inference`: one task per configured provider, in
provider order; `asyncio.gather` preserves task order, and because
`_run_provider_inference` catches `asyncio.TimeoutError` and `Exception`,
every gathered result is a `ModelResponse`, so the isinstance filter keeps
every entry. -/
def runInference (timeout : ℚ) (tasks : List ProviderTask) : List ModelResponse :=
  let results := tasks.map fun t =>
    runProviderInference timeout t.provider t.outcome t.elapsed t.now
  results.filterMap fun r => some r

/-! ## Semantic cache (src/cache/semantic_cache.py)

Redis values are byte strings, modelled as `String`; `json.dumps` and
`json.loads` are inverse serialisations carrying no structure the claims
need, so the payload is kept in serialised form and deserialisation is the
identity.  MD5 is an uninterpreted hash function passed as a parameter.
Embeddings are raw `float32` bytes, also modelled as `String`, with the
cosine similarity an abstract function stored in the cache value (the
numeric computation is floating point). -/

/-- Python truthiness of an optional byte string: `None` and `b""` are
falsy, so `if response_bytes:` treats both as absent. -/
def bytesTruthy : Option String → Option String
  | none => none
  | some s => if s = "" then none else some s

/-- The Redis client calls issued by `SemanticCache`; every call may raise,
modelled by `Except`. `pipelineWrite` is the pipelined
hset/hset/hset/expire batch of `SemanticCache.set`. -/
structure RedisBackend where
  get : String → Except String (Option String)
  keys : String → Except String (List String)
  hget : String → String → Except String (Option String)
  setex : String → Int → String → Except String Unit
  pipelineWrite : String → String → String → String → Int → Except String Unit

/-- The `SemanticCache` object state after `__init__`. -/
structure SemanticCache where
  redis_client : Option RedisBackend
  similarity_threshold : ℚ
  ttl : Int
  /-- The sentence-transformer: `encode` maps a prompt to embedding bytes,
  with `none` for a failed encode (`_get_embedding` returns `None` both
  when the model is missing and when `encode` raises). -/
  model : Option (String → Option String)
  /-- `_cosine_similarity` on raw embedding bytes, abstract. -/
  sim : String → String → ℚ
  init_error : Option String := none

/-- `SemanticCache.__init__`: a failed `redis.from_url`/`ping` leaves
`redis_client = None` and records the error; the cache object is still
constructed. -/
def mkSemanticCache (connect : Except String RedisBackend) (threshold : ℚ) (ttl : Int)
    (model : Option (String → Option String)) (sim : String → String → ℚ) : SemanticCache :=
  match connect with
  | .ok rc =>
    { redis_client := some rc, similarity_threshold := threshold, ttl := ttl,
      model := model, sim := sim, init_error := none }
  | .error e =>
    { redis_client := none, similarity_threshold := threshold, ttl := ttl,
      model := model, sim := sim, init_error := some e }

/-- One iteration of the semantic scan in `SemanticCache.get`: the per-key
`try/except` swallows a raised `hget`, an absent or empty embedding is
skipped, and the best match above the threshold is tracked. -/
def scanStep (cache : SemanticCache) (rc : RedisBackend) (prompt_embedding : String)
    (acc : Option String × ℚ) (key : String) : Option String × ℚ :=
  match rc.hget key "embedding" with
  | .error _ => acc
  | .ok b =>
    match bytesTruthy b with
    | none => acc
    | some eb =>
      let similarity := cache.sim prompt_embedding eb
      if similarity > acc.2 ∧ similarity ≥ cache.similarity_threshold then (some key, similarity)
      else acc

/-- The body of the outer `try` of `SemanticCache.get`: exact tier first,
then the semantic scan when an embedding model is available. -/
def getBody (md5 : String → String) (cache : SemanticCache) (rc : RedisBackend)
    (prompt provider : String) : Except String (Option String) := do
  let prompt_hash := md5 prompt
  let exact_key := "cache:" ++ provider ++ ":exact:" ++ prompt_hash
  let response_bytes ← rc.get exact_key
  match bytesTruthy response_bytes with
  | some bytes => return some bytes
  | none =>
    match cache.model with
    | none => return none
    | some encode =>
      match encode prompt with
      | none => return none
      | some prompt_embedding => do
        let keys ← rc.keys ("cache:" ++ provider ++ ":semantic:*")
        let best := keys.foldl (scanStep cache rc prompt_embedding) (none, 0)
        match best.1 with
        | none => return none
        | some best_match => do
          let rb ← rc.hget best_match "response"
          match bytesTruthy rb with
          | some bytes => return some bytes
          | none => return none

/-- The body of the outer `try` of `SemanticCache.set`: always write the
exact entry, then the pipelined semantic entry when an embedding is
available. -/
def setBody (md5 : String → String) (cache : SemanticCache) (rc : RedisBackend)
    (prompt provider response : String) : Except String Unit := do
  let prompt_hash := md5 prompt
  let exact_key := "cache:" ++ provider ++ ":exact:" ++ prompt_hash
  rc.setex exact_key cache.ttl response
  match cache.model with
  | none => return ()
  | some encode =>
    match encode prompt with
    | none => return ()
    | some embedding =>
      let semantic_key := "cache:" ++ provider ++ ":semantic:" ++ (prompt_hash.take 8)
      rc.pipelineWrite semantic_key prompt embedding response cache.ttl

/-- `SemanticCache.get`: `None` without a client, and the outer `except`
turns any raised backend error into `None`. -/
def SemanticCache.get (md5 : String → String) (cache : SemanticCache)
    (prompt provider : String) : Option String :=
  match cache.redis_client with
  | none => none
  | some rc =>
    match getBody md5 cache rc prompt provider with
    | .ok v => v
    | .error _ => none

/-- `SemanticCache.set`: `False` without a client, and the outer `except`
turns any raised backend error into `False`. -/
def SemanticCache.set (md5 : String → String) (cache : SemanticCache)
    (prompt provider response : String) : Bool :=
  match cache.redis_client with
  | none => false
  | some rc =>
    match setBody md5 cache rc prompt provider response with
    | .ok _ => true
    | .error _ => false

/-! ## Cache interception as specified (spec §4.1) -/

/-- Follows the spec's words: the cache entry store keyed by
`(provider, prompt)`. -/
def SpecCache := List ((String × String) × ModelResponse)

/-- Follows the spec's words: look up the cache under
`(provider_name, prompt)`. -/
def specCacheGet (c : SpecCache) (provider prompt : String) : Option ModelResponse :=
  List.lookup (provider, prompt) c

/-- Follows the spec's words: a cache hit short-circuits the provider call
and yields the cached response with `latency = 0` and a fresh timestamp. -/
def specCacheHitResponse (r : ModelResponse) (now : ℚ) : ModelResponse :=
  { r with latency := 0, timestamp := now }

/-! ## Sandbox executors (src/sandbox/executor.py and
src/sandbox/subprocess_executor.py) -/

namespace SandboxExecutor

/-- `SandboxExecutor.IMAGES`: the language-to-image table of the container
backend. -/
def IMAGES : List (String × String) :=
  [("python", "inference-gateway-python-sandbox"),
   ("javascript", "inference-gateway-js-sandbox"),
   ("bash", "inference-gateway-python-sandbox")]

/-- `SandboxExecutor.execute_code` (container backend).  A language outside
`IMAGES` returns the unsupported-language result without touching Docker;
otherwise the offloaded `_execute_sync` call either produces a result or
raises, and the handler converts a raise into a failed result. -/
def execute_code (block : CodeBlock) (execOutcome : Except String ExecutionResult) :
    ExecutionResult :=
  if (IMAGES.lookup block.language).isNone then
    { success := false, exit_code := -1, stdout := "",
      stderr := "Unsupported language: " ++ block.language, execution_time := 0,
      error := some ("Language '" ++ block.language ++ "' is not supported for execution") }
  else
    match execOutcome with
    | .ok r => r
    | .error e =>
      { success := false, exit_code := -1, stdout := "", stderr := e,
        execution_time := 0, error := some ("Execution failed: " ++ e) }

end SandboxExecutor

namespace SubprocessExecutor

/-- `SubprocessExecutor._get_exec_command`'s interpreter table, keyed by
the lower-cased language. -/
def commands : List (String × String) :=
  [("python", "python3"), ("javascript", "node"), ("bash", "bash"), ("shell", "bash")]

/-- `SubprocessExecutor.execute_code`.  For an unknown language
`_get_exec_command` raises `SandboxError("Unsupported language: X")` inside
the outer `try`, whose handler returns a failed result with `exit_code=1`
and `str(e)` as stderr.  For a known language the child process either
finishes with `(returncode, stdout, stderr)` or an exception (such as the
timeout-path `SandboxError`) reaches the same handler.  `process.returncode
or 0` equals the return code, since `communicate()` leaves it non-`None`. -/
def execute_code (block : CodeBlock) (proc : Except String (Int × String × String))
    (elapsed : ℚ) : ExecutionResult :=
  match commands.lookup (pyLower block.language) with
  | none =>
    let msg := "Unsupported language: " ++ block.language
    { success := false, exit_code := 1, stdout := "", stderr := msg,
      execution_time := elapsed, error := some msg }
  | some _ =>
    match proc with
    | .ok (rc, out, err) =>
      { success := rc == 0, exit_code := rc, stdout := out, stderr := err,
        execution_time := elapsed,
        error := if rc == 0 then none else some "Non-zero exit code" }
    | .error e =>
      { success := false, exit_code := 1, stdout := "", stderr := e,
        execution_time := elapsed, error := some e }

end SubprocessExecutor

/-! ## Healer (src/orchestrator/healer.py) and the healing pass of
src/main.py -/

namespace Healer

/-- `Healer.heal_code`, as a function of the outcome of its provider call
and of the code extraction applied to the reply.  `completion` is the
awaited `generate_completion` call (`Except.error` when it raises — the
outer `except` returns `None`); `executableBlocks` is
`filter_executable_blocks(extract_code_blocks(text))`.  An empty reply text
or an extraction without executable blocks also yields `None`; otherwise
the first executable block's code is the fix candidate. -/
def heal_code (completion : Except String String)
    (executableBlocks : String → List CodeBlock) : Option String :=
  match completion with
  | .error _ => none
  | .ok text =>
    if text = "" then none
    else
      match executableBlocks text with
      | [] => none
      | b :: _ => some b.code

end Healer

/-- The external interactions one healing pass over a response can make,
indexed by the position of the failing execution result: the provider
completion for index `i`, the extractor run on the reply, whether the
originating provider was found among the configured providers, and the
sandbox re-execution of the fix candidate (`Except.error` when
`execute_code` raises). -/
structure HealEnv where
  completion : Nat → Except String String
  executableBlocks : String → List CodeBlock
  providerFound : Bool
  reExec : Nat → Except String ExecutionResult

/-- One iteration of the healing loop of `run_inference` (src/main.py,
step 3.5) at index `i`, acting on the current block and result lists.
Python's `enumerate` walks indices `0..len-1`; an iteration only ever
rewrites position `i`, via `response.code_blocks[i] = new_block` and
`response.execution_results[i] = new_result`, and the replacement block is
always built as `CodeBlock(language="python", code=fixed_code)`. -/
def healStep (env : HealEnv) (st : List CodeBlock × List ExecutionResult) (i : Nat) :
    List CodeBlock × List ExecutionResult :=
  match st.2.get? i with
  | none => st
  | some result =>
    if !result.success && result.stderr ≠ "" then
      if env.providerFound && decide (i < st.1.length) then
        match Healer.heal_code (env.completion i) env.executableBlocks with
        | none => st
        | some fixed_code =>
          if fixed_code ≠ "" then
            match env.reExec i with
            | .error _ => st
            | .ok new_result =>
              (st.1.set i { language := "python", code := fixed_code },
               st.2.set i new_result)
          else st
      else st
    else st

/-- The whole healing pass over one response: the loop body applied at each
index of `execution_results` in order. -/
def healResponse (env : HealEnv) (resp : ModelResponse) : ModelResponse :=
  let st := (List.range resp.execution_results.length).foldl (healStep env)
    (resp.code_blocks, resp.execution_results)
  { resp with code_blocks := st.1, execution_results := st.2 }

/-! ## Rate limiter (src/utils/rate_limiter.py) -/

/-- The bucket state of `AsyncRateLimiter`. -/
structure RateLimiter where
  max_rate : ℚ
  time_period : ℚ
  tokens : ℚ
  last_update : ℚ
  deriving DecidableEq, Repr

/-- The refill prefix of each `acquire` loop iteration, at wall-clock time
`now`: add `time_passed * max_rate / time_period` tokens when positive,
capped at `max_rate`. -/
def refill (s : RateLimiter) (now : ℚ) : RateLimiter :=
  let time_passed := now - s.last_update
  let new_tokens := time_passed * (s.max_rate / s.time_period)
  if new_tokens > 0 then
    { s with tokens := min s.max_rate (s.tokens + new_tokens), last_update := now }
  else s

/-- One iteration of the `while True` loop of `acquire`, woken at time
`now`: refill, then either take a token and return (`Sum.inl`) or sleep
and loop (`Sum.inr`). -/
def acquireStep (s : RateLimiter) (now : ℚ) : RateLimiter ⊕ RateLimiter :=
  let s1 := refill s now
  if s1.tokens ≥ 1 then Sum.inl { s1 with tokens := s1.tokens - 1 }
  else Sum.inr s1

/-- A run of `acquire` observed at the wall-clock times `ts` of successive
loop iterations; `none` means the run was still waiting after the observed
iterations. -/
def acquireRun (s : RateLimiter) : List ℚ → Option RateLimiter
  | [] => none
  | t :: ts =>
    match acquireStep s t with
    | Sum.inl d => some d
    | Sum.inr c => acquireRun c ts

/-! ## Concrete fixtures used by witnesses and counterexamples -/

/-- A response whose single execution succeeded with stdout `"4"`. -/
def respOneOutput : ModelResponse :=
  { model_name := "m1", provider := "p1", text := "t1", code_blocks := [],
    execution_results := [{ success := true, exit_code := 0, stdout := "4", stderr := "",
                            execution_time := 1, error := none }],
    latency := 1, timestamp := 0, error := none }

/-- A response with no executions at all. -/
def respNoOutput : ModelResponse :=
  { model_name := "m2", provider := "p2", text := "t2", code_blocks := [],
    execution_results := [], latency := 1, timestamp := 0, error := none }

/-- A response whose single execution succeeded with stdout `" 4 "`,
trimming to the same output as `respOneOutput`. -/
def respSameOutput : ModelResponse :=
  { model_name := "m3", provider := "p3", text := "t3", code_blocks := [],
    execution_results := [{ success := true, exit_code := 0, stdout := " 4 ", stderr := "",
                            execution_time := 1, error := none }],
    latency := 1, timestamp := 0, error := none }

/-- A response whose `error` field is present but the empty string. -/
def respEmptyError : ModelResponse :=
  { model_name := "m", provider := "p", text := "hi", code_blocks := [],
    execution_results := [], latency := 0, timestamp := 0, error := some "" }

/-- An error-free response whose only execution succeeded, with
non-positive latency. -/
def respAllSuccess : ModelResponse :=
  { model_name := "m", provider := "p", text := "ok", code_blocks := [],
    execution_results := [{ success := true, exit_code := 0, stdout := "4", stderr := "",
                            execution_time := 1, error := none }],
    latency := 0, timestamp := 0, error := none }

end Gateway

namespace Gateway

/-! ## C2: consensus -/

/-- C2 counterexample input: two responses of which exactly one has a
single successful execution. -/
def consensusPair : List ModelResponse := [respOneOutput, respNoOutput]

/-- C2 (counterexample): with two responses and a single successful
execution output, `check_consensus` returns `true`, although fewer than
two outputs exist — the code only requires two responses and one output,
not two outputs. -/
theorem check_consensus_single_output_counterexample :
    Verifier.check_consensus consensusPair = true ∧
    ¬ 2 ≤ (Verifier.successfulOutputs consensusPair).length := by
  decide

/-- C2 (amended): `check_consensus` returns `true` iff there are at least
two responses, at least one successful execution output exists, and all
collected trimmed outputs are string-equal. -/
theorem check_consensus_characterization (responses : List ModelResponse) :
    Verifier.check_consensus responses = true ↔
      2 ≤ responses.length ∧ Verifier.successfulOutputs responses ≠ [] ∧
        ∀ x ∈ Verifier.successfulOutputs responses,
          ∀ y ∈ Verifier.successfulOutputs responses, x = y := by
  rw [Verifier.check_consensus]
  rcases Nat.lt_or_ge responses.length 2 with h | h
  · rw [if_pos h]
    apply iff_of_false (by simp)
    rintro ⟨h2, -, -⟩
    omega
  · rw [if_neg (by omega)]
    cases houts : Verifier.successfulOutputs responses with
    | nil =>
      apply iff_of_false (by simp)
      rintro ⟨-, hne, -⟩
      exact hne rfl
    | cons first rest =>
      constructor
      · intro hall
        have hall' := List.all_eq_true.mp hall
        refine ⟨h, by simp, ?_⟩
        intro x hx y hy
        have hx' : x = first := by simpa using hall' x hx
        have hy' : y = first := by simpa using hall' y hy
        rw [hx', hy']
      · rintro ⟨-, -, hpair⟩
        apply List.all_eq_true.mpr
        intro o ho
        have ho' : o = first := hpair o ho first (List.mem_cons_self _ _)
        simpa using ho'

/-- C2 witness: the characterization applied to a concrete pair of
responses whose trimmed outputs agree. -/
theorem check_consensus_characterization_witness :
    2 ≤ ([respOneOutput, respSameOutput] : List ModelResponse).length ∧
      Verifier.successfulOutputs [respOneOutput, respSameOutput] ≠ [] ∧
        ∀ x ∈ Verifier.successfulOutputs [respOneOutput, respSameOutput],
          ∀ y ∈ Verifier.successfulOutputs [respOneOutput, respSameOutput], x = y :=
  (check_consensus_characterization [respOneOutput, respSameOutput]).mp (by decide)

/-! ## C4: scoring -/

/-- C4 (counterexample): a response whose `error` field is set (to the
empty string) but non-truthy scores `1/2`, not `0`. -/
theorem score_result_empty_error_counterexample :
    respEmptyError.error ≠ none ∧ Verifier.score_result respEmptyError = 1/2 ∧
      Verifier.score_result respEmptyError ≠ 0 := by
  refine ⟨by simp [respEmptyError], ?_, ?_⟩
  · simp [Verifier.score_result, respEmptyError, strTruthy]
  · simp [Verifier.score_result, respEmptyError, strTruthy]

/-- C4 (amended): `score_result` returns `0` when `error` is truthy (a
non-empty string); otherwise `1/2` for a response without executions but
with text (`0` without text); otherwise the success ratio plus the latency
bonus capped at `1`; the result is always in `[0, 1]`, and an error-free
response whose executions all succeeded with `latency ≤ 0` scores exactly
`1`. -/
theorem score_result_bounds_and_cases (r : ModelResponse) :
    (strTruthy r.error = true → Verifier.score_result r = 0) ∧
    (strTruthy r.error = false → r.execution_results = [] →
      Verifier.score_result r = if r.text ≠ "" then 1/2 else 0) ∧
    (strTruthy r.error = false → r.execution_results ≠ [] →
      Verifier.score_result r =
        min 1 (((r.execution_results.filter Verifier.verify_execution).length : ℚ) /
            (r.execution_results.length : ℚ) + max 0 (1/5 - r.latency / 100))) ∧
    0 ≤ Verifier.score_result r ∧ Verifier.score_result r ≤ 1 ∧
    (r.error = none → r.execution_results ≠ [] →
      (∀ e ∈ r.execution_results, Verifier.verify_execution e = true) →
      r.latency ≤ 0 → Verifier.score_result r = 1) := by
  refine ⟨?_, ?_, ?_, ?_, ?_, ?_⟩
  · intro h
    simp [Verifier.score_result, h]
  · intro h he
    simp [Verifier.score_result, h, he]
  · intro h he
    have hlen : 0 < r.execution_results.length := List.length_pos.mpr he
    simp only [Verifier.score_result, h, Bool.false_eq_true, if_false, if_neg he, if_pos hlen]
  · rw [Verifier.score_result]
    split
    · norm_num
    · split
      · split <;> norm_num
      · refine le_min (by norm_num) (add_nonneg ?_ (le_max_left _ _))
        split
        · positivity
        · norm_num
  · rw [Verifier.score_result]
    split
    · norm_num
    · split
      · split <;> norm_num
      · exact min_le_left _ _
  · intro herr hne hall hlat
    have h1 : strTruthy r.error = false := by rw [herr]; rfl
    have hfil : r.execution_results.filter Verifier.verify_execution = r.execution_results :=
      List.filter_eq_self.mpr hall
    have hlen : 0 < r.execution_results.length := List.length_pos.mpr hne
    simp only [Verifier.score_result, h1, Bool.false_eq_true, if_false, if_neg hne, hfil,
      if_pos hlen]
    rw [div_self (by positivity)]
    apply min_eq_left
    have hb : (0:ℚ) ≤ max 0 (1/5 - r.latency / 100) := le_max_left _ _
    linarith

/-- C4 witness: the all-success, non-positive-latency case of the scoring
theorem at a concrete response scores exactly `1`. -/
theorem score_result_bounds_and_cases_witness :
    Verifier.score_result respAllSuccess = 1 :=
  (score_result_bounds_and_cases respAllSuccess).2.2.2.2.2 rfl (by simp [respAllSuccess])
    (by decide) (le_refl 0)

/-! ## C6: unsupported languages in the sandbox -/

/-- A code block in a language neither backend supports. -/
def rustBlock : CodeBlock := { language := "rust", code := "fn main() \x7b\x7d" }

/-- C6 (counterexample): on the subprocess backend an unsupported language
produces `exit_code = 1`, not `-1` — the `SandboxError` is caught by the
generic handler that reports exit code 1. -/
theorem subprocess_unsupported_exit_code_counterexample :
    (SubprocessExecutor.execute_code rustBlock (.ok (0, "", "")) 0).success = false ∧
    (SubprocessExecutor.execute_code rustBlock (.ok (0, "", "")) 0).stderr =
      "Unsupported language: rust" ∧
    (SubprocessExecutor.execute_code rustBlock (.ok (0, "", "")) 0).exit_code = 1 ∧
    (SubprocessExecutor.execute_code rustBlock (.ok (0, "", "")) 0).exit_code ≠ -1 := by
  refine ⟨?_, ?_, ?_, ?_⟩ <;> decide

/-- C6 (amended): for a block whose language neither backend's table
contains, both backends return (without raising) a failed result with
stderr `"Unsupported language: X"`; the container backend reports
`exit_code = -1` while the subprocess backend reports `exit_code = 1`. -/
theorem execute_code_unsupported_language (block : CodeBlock)
    (hdocker : SandboxExecutor.IMAGES.lookup block.language = none)
    (hsub : SubprocessExecutor.commands.lookup (pyLower block.language) = none)
    (execOutcome : Except String ExecutionResult)
    (proc : Except String (Int × String × String)) (elapsed : ℚ) :
    SandboxExecutor.execute_code block execOutcome =
      { success := false, exit_code := -1, stdout := "",
        stderr := "Unsupported language: " ++ block.language, execution_time := 0,
        error := some ("Language '" ++ block.language ++ "' is not supported for execution") } ∧
    SubprocessExecutor.execute_code block proc elapsed =
      { success := false, exit_code := 1, stdout := "",
        stderr := "Unsupported language: " ++ block.language, execution_time := elapsed,
        error := some ("Unsupported language: " ++ block.language) } := by
  constructor
  · simp [SandboxExecutor.execute_code, hdocker]
  · simp [SubprocessExecutor.execute_code, hsub]

/-- A placeholder successful execution outcome for oracle arguments the
unsupported-language path never consults. -/
def dummyExec : ExecutionResult :=
  { success := true, exit_code := 0, stdout := "", stderr := "", execution_time := 0,
    error := none }

/-- C6 witness: the amended theorem applied to the concrete rust block. -/
theorem execute_code_unsupported_language_witness :
    SandboxExecutor.execute_code rustBlock (.ok dummyExec) =
      { success := false, exit_code := -1, stdout := "",
        stderr := "Unsupported language: rust", execution_time := 0,
        error := some "Language 'rust' is not supported for execution" } ∧
    SubprocessExecutor.execute_code rustBlock (.ok (0, "", "")) 0 =
      { success := false, exit_code := 1, stdout := "",
        stderr := "Unsupported language: rust", execution_time := 0,
        error := some "Unsupported language: rust" } := by
  have h := execute_code_unsupported_language rustBlock (by decide) (by decide)
    (.ok dummyExec) (.ok (0, "", "")) 0
  simpa [rustBlock] using h

/-! ## C7: cache degradation -/

/-- C7: whenever the backing store is unavailable — the connection failed
at construction, or the backend raises during the call — `get` returns
`none` and `set` returns `false`; neither operation can propagate an
exception since both are total functions whose outer handler maps every
raised backend error to the degraded value. -/
theorem semantic_cache_degrades (md5 : String → String) (cache : SemanticCache)
    (prompt provider response : String) :
    (cache.redis_client = none →
      SemanticCache.get md5 cache prompt provider = none ∧
      SemanticCache.set md5 cache prompt provider response = false) ∧
    (∀ connErr threshold ttl model sim,
      (mkSemanticCache (.error connErr) threshold ttl model sim).redis_client = none) ∧
    (∀ rc, cache.redis_client = some rc →
      (∀ e, getBody md5 cache rc prompt provider = .error e →
        SemanticCache.get md5 cache prompt provider = none) ∧
      (∀ e, setBody md5 cache rc prompt provider response = .error e →
        SemanticCache.set md5 cache prompt provider response = false)) ∧
    (∀ rc, cache.redis_client = some rc →
      (∀ k, rc.get k = .error "connection lost") →
      SemanticCache.get md5 cache prompt provider = none) ∧
    (∀ rc, cache.redis_client = some rc →
      (∀ k t v, rc.setex k t v = .error "connection lost") →
      SemanticCache.set md5 cache prompt provider response = false) := by
  refine ⟨?_, ?_, ?_, ?_, ?_⟩
  · intro h
    constructor <;> simp [SemanticCache.get, SemanticCache.set, h]
  · intro connErr threshold ttl model sim
    rfl
  · intro rc hrc
    constructor
    · intro e he
      simp [SemanticCache.get, hrc, he]
    · intro e he
      simp [SemanticCache.set, hrc, he]
  · intro rc hrc hdown
    have : getBody md5 cache rc prompt provider =
        .error "connection lost" := by
      rw [getBody]
      rw [hdown]
      rfl
    simp [SemanticCache.get, hrc, this]
  · intro rc hrc hdown
    have : setBody md5 cache rc prompt provider response =
        .error "connection lost" := by
      rw [setBody]
      rw [hdown]
      rfl
    simp [SemanticCache.set, hrc, this]

/-- A cache object whose Redis connection failed at construction. -/
def noClientCache : SemanticCache :=
  { redis_client := none, similarity_threshold := 19/20, ttl := 3600, model := none,
    sim := fun _ _ => 0, init_error := some "connection refused" }

/-- C7 witness: the degradation theorem applied to a concrete cache with
no client. -/
theorem semantic_cache_degrades_witness :
    SemanticCache.get (fun s => s) noClientCache "prompt" "groq" = none ∧
    SemanticCache.set (fun s => s) noClientCache "prompt" "groq" "resp" = false :=
  (semantic_cache_degrades (fun s => s) noClientCache "prompt" "groq" "resp").1 rfl

/-! ## C3: one response per provider, in order -/

/-- C3: `run_inference` produces exactly one `ModelResponse` per configured
provider, aligned with the provider order; a timed-out or failed provider
still contributes its entry, with `error` set and empty text, code blocks
and execution results. -/
theorem run_inference_one_entry_per_provider (timeout : ℚ) (tasks : List ProviderTask) :
    (runInference timeout tasks).length = tasks.length ∧
    ∀ i t, tasks.get? i = some t →
      ∃ r, (runInference timeout tasks).get? i = some r ∧
        r.provider = t.provider.name ∧
        ((t.outcome = .timeout ∨ ∃ m, t.outcome = .failure m) →
          r.error ≠ none ∧ r.text = "" ∧ r.code_blocks = [] ∧ r.execution_results = []) := by
  have hre : runInference timeout tasks =
      tasks.map fun t => runProviderInference timeout t.provider t.outcome t.elapsed t.now := by
    simp [runInference]
  constructor
  · rw [hre, List.length_map]
  · intro i t ht
    refine ⟨runProviderInference timeout t.provider t.outcome t.elapsed t.now, ?_, ?_, ?_⟩
    · rw [hre, List.get?_map, ht]
      rfl
    · cases t.outcome <;> rfl
    · rintro (hout | ⟨m, hout⟩) <;> simp [runProviderInference, hout]

/-- A concrete two-provider environment where the second provider times
out. -/
def tasksFixture : List ProviderTask :=
  [ { provider := { name := "groq", model_name := "llama" },
      outcome := .success "hello" none, elapsed := 1, now := 10 },
    { provider := { name := "gemini", model_name := "pro" },
      outcome := .timeout, elapsed := 120, now := 130 } ]

/-- C3 witness: the per-provider theorem applied at index 1 of a concrete
task list whose second provider timed out. -/
theorem run_inference_one_entry_per_provider_witness :
    (runInference 120 tasksFixture).length = tasksFixture.length ∧
    ∃ r, (runInference 120 tasksFixture).get? 1 = some r ∧
      r.provider = "gemini" ∧
      (r.error ≠ none ∧ r.text = "" ∧ r.code_blocks = [] ∧ r.execution_results = []) := by
  obtain ⟨hlen, hidx⟩ := run_inference_one_entry_per_provider 120 tasksFixture
  refine ⟨hlen, ?_⟩
  obtain ⟨r, hr, hprov, herr⟩ := hidx 1 (tasksFixture.get ⟨1, by decide⟩) (by decide)
  exact ⟨r, hr, hprov, herr (Or.inl rfl)⟩

/-! ## C1: cache interception in the per-provider unit -/

/-- The fixture provider for the C1 counterexample. -/
def groqProvider : Provider := { name := "groq", model_name := "llama" }

/-- A cached response for `("groq", "hi")`. -/
def cachedResp : ModelResponse :=
  { model_name := "llama", provider := "groq", text := "cached", code_blocks := [],
    execution_results := [], latency := 2, timestamp := 1, error := none }

/-- A spec-level cache holding an entry for `("groq", "hi")`. -/
def hitCache : SpecCache := [(("groq", "hi"), cachedResp)]

/-- C1 (counterexample): the cache holds an entry for `("groq", "hi")`,
yet the per-provider unit run on prompt `"hi"` with a failing provider
returns the error-tagged response, not the cached response with
`latency = 0` that the claimed short-circuit would produce: the unit never
looks at the cache. -/
theorem run_provider_ignores_cache_counterexample :
    specCacheGet hitCache "groq" "hi" = some cachedResp ∧
    runProviderInference 120 groqProvider (.failure "boom") 1 5 ≠
      specCacheHitResponse cachedResp 5 := by
  constructor
  · rfl
  · intro h
    have herr := congrArg ModelResponse.error h
    simp [runProviderInference, specCacheHitResponse, cachedResp, groqProvider] at herr

/-- C1 (amended): the per-provider unit performs no cache interaction at
all.  Even when the spec-level cache holds an entry for
`(provider_name, prompt)`, the provider call is issued and the unit's
result is built solely from the provider outcome: the latency is the
measured elapsed time in every case, and a successful call returns the
provider's fresh text with no error. -/
theorem run_provider_no_cache_short_circuit (c : SpecCache) (p : Provider)
    (prompt text : String) (model : Option String) (r : ModelResponse)
    (timeout elapsed now : ℚ) (o : ProviderOutcome)
    (hhit : specCacheGet c p.name prompt = some r) :
    (runProviderInference timeout p o elapsed now).latency = elapsed ∧
    (runProviderInference timeout p (.success text model) elapsed now).text = text ∧
    (runProviderInference timeout p (.success text model) elapsed now).error = none := by
  refine ⟨?_, rfl, rfl⟩
  cases o <;> rfl

/-- C1 witness: the no-short-circuit theorem at the concrete hit cache. -/
theorem run_provider_no_cache_short_circuit_witness :
    (runProviderInference 120 groqProvider (.failure "boom") 1 5).latency = 1 ∧
    (runProviderInference 120 groqProvider (.success "fresh" none) 1 5).text = "fresh" ∧
    (runProviderInference 120 groqProvider (.success "fresh" none) 1 5).error = none :=
  run_provider_no_cache_short_circuit hitCache groqProvider "hi" "fresh" none cachedResp
    120 1 5 (.failure "boom") rfl

/-! ## C8: rate limiter -/

/-- Refilling never changes the bucket's parameters. -/
theorem refill_max_rate (s : RateLimiter) (now : ℚ) :
    (refill s now).max_rate = s.max_rate := by
  rw [refill]
  split <;> rfl

/-- Refilling keeps the token count at or below the cap. -/
theorem refill_tokens_le (s : RateLimiter) (now : ℚ) (h : s.tokens ≤ s.max_rate) :
    (refill s now).tokens ≤ s.max_rate := by
  rw [refill]
  split
  · exact min_le_left _ _
  · exact h

/-- C8: with `max_rate ≥ 1` and an initial token count within the cap, the
token count never exceeds `max_rate` (each refill caps at `max_rate`, and
a waiting iteration hands the capped state on), and an `acquire` run
returns only through a step whose refilled token count is at least `1`,
which it decrements by exactly `1`; the returned state still respects the
cap. -/
theorem rate_limiter_acquire_spec (L : RateLimiter) (hrate : 1 ≤ L.max_rate)
    (hcap : L.tokens ≤ L.max_rate) (ts : List ℚ) :
    (∀ now, (refill L now).tokens ≤ L.max_rate) ∧
    (∀ (c : RateLimiter) (now : ℚ) (d : RateLimiter), acquireStep c now = Sum.inl d →
      1 ≤ (refill c now).tokens ∧ d.tokens = (refill c now).tokens - 1) ∧
    (∀ (now : ℚ) (c : RateLimiter), acquireStep L now = Sum.inr c →
      c.tokens ≤ c.max_rate ∧ c.max_rate = L.max_rate) ∧
    (∀ d, acquireRun L ts = some d →
      d.tokens ≤ L.max_rate ∧ d.max_rate = L.max_rate ∧
      ∃ (c : RateLimiter) (now : ℚ), c.tokens ≤ c.max_rate ∧ c.max_rate = L.max_rate ∧
        acquireStep c now = Sum.inl d) := by
  have hstep_inl : ∀ (c : RateLimiter) (now : ℚ) (d : RateLimiter),
      acquireStep c now = Sum.inl d →
      1 ≤ (refill c now).tokens ∧ d.tokens = (refill c now).tokens - 1 ∧
      d.max_rate = c.max_rate ∧
      (c.tokens ≤ c.max_rate → d.tokens ≤ c.max_rate) := by
    intro c now d h
    rw [acquireStep] at h
    split at h
    · rename_i hge
      cases h
      refine ⟨hge, rfl, refill_max_rate c now, ?_⟩
      intro hc
      have := refill_tokens_le c now hc
      simp only
      linarith
    · cases h
  have hstep_inr : ∀ (c : RateLimiter) (now : ℚ) (c' : RateLimiter),
      acquireStep c now = Sum.inr c' →
      c' = refill c now := by
    intro c now c' h
    rw [acquireStep] at h
    split at h
    · cases h
    · cases h
      rfl
  refine ⟨fun now => refill_tokens_le L now hcap, ?_, ?_, ?_⟩
  · intro c now d h
    obtain ⟨h1, h2, -, -⟩ := hstep_inl c now d h
    exact ⟨h1, h2⟩
  · intro now c h
    have hc := hstep_inr L now c h
    subst hc
    exact ⟨(refill_max_rate L now) ▸ refill_tokens_le L now hcap, refill_max_rate L now⟩
  · intro d
    clear hrate
    induction ts generalizing L with
    | nil => intro h; cases h
    | cons t ts ih =>
      intro h
      rw [acquireRun] at h
      cases hstep : acquireStep L t with
      | inl d0 =>
        rw [hstep] at h
        injection h with hd
        subst hd
        obtain ⟨-, -, hmr, hle⟩ := hstep_inl L t d0 hstep
        exact ⟨hle hcap, hmr, L, t, hcap, rfl, hstep⟩
      | inr c =>
        rw [hstep] at h
        have hc := hstep_inr L t c hstep
        have hcap' : c.tokens ≤ c.max_rate := by
          subst hc
          exact (refill_max_rate L t) ▸ refill_tokens_le L t hcap
        have hmr : c.max_rate = L.max_rate := by
          subst hc
          exact refill_max_rate L t
        obtain ⟨h1, h2, cc, nn, h3, h4, h5⟩ := ih c hcap' h
        exact ⟨hmr ▸ h1, hmr ▸ h2, cc, nn, h3, hmr ▸ h4, h5⟩

/-- A concrete bucket: 30 tokens per 60 seconds, currently empty, last
updated at time 0. -/
def emptyBucket : RateLimiter :=
  { max_rate := 30, time_period := 60, tokens := 0, last_update := 0 }

/-- C8 witness: the rate-limiter theorem at a concrete empty bucket; its
first conjunct instantiated at a concrete refill time. -/
theorem rate_limiter_acquire_spec_witness :
    (refill emptyBucket 1).tokens ≤ emptyBucket.max_rate :=
  (rate_limiter_acquire_spec emptyBucket (by norm_num [emptyBucket])
    (by norm_num [emptyBucket]) [1]).1 1

/-! ## C5: synthesis -/

/-- The head evolution of one stable-descending insertion. -/
theorem insertDesc_head (x : ModelResponse × ℚ) (l : List (ModelResponse × ℚ)) :
    (Synthesizer.insertDesc x l).head? =
      some (match l.head? with
        | none => x
        | some y => if x.2 > y.2 then x else y) := by
  cases l with
  | nil => rfl
  | cons y ys =>
    rw [Synthesizer.insertDesc]
    by_cases h : x.2 > y.2 <;> simp [h]

/-- The head evolution of the whole sort fold, as a fold on heads. -/
def headStep (h : Option (ModelResponse × ℚ)) (x : ModelResponse × ℚ) :
    Option (ModelResponse × ℚ) :=
  match h with
  | none => some x
  | some y => some (if x.2 > y.2 then x else y)

theorem foldl_insertDesc_head (l acc : List (ModelResponse × ℚ)) :
    (l.foldl (fun a x => Synthesizer.insertDesc x a) acc).head? =
      l.foldl headStep acc.head? := by
  induction l generalizing acc with
  | nil => rfl
  | cons z zs ih =>
    rw [List.foldl_cons, List.foldl_cons, ih]
    congr 1
    rw [insertDesc_head]
    cases acc with
    | nil => rfl
    | cons a as => rfl

theorem foldl_headStep_some (xs : List (ModelResponse × ℚ)) (x : ModelResponse × ℚ) :
    xs.foldl headStep (some x) =
      some (match Synthesizer.firstArgmax xs with
        | none => x
        | some y => if y.2 > x.2 then y else x) := by
  induction xs generalizing x with
  | nil => rfl
  | cons z zs ih =>
    rw [List.foldl_cons]
    show zs.foldl headStep (some (if z.2 > x.2 then z else x)) = _
    rw [ih]
    cases hza : Synthesizer.firstArgmax zs with
    | none =>
      simp only [Synthesizer.firstArgmax, hza]
    | some y =>
      simp only [Synthesizer.firstArgmax, hza]
      by_cases h1 : z.2 > x.2 <;> by_cases h2 : y.2 > z.2 <;>
        simp only [h1, h2, if_true, if_false] <;>
        split_ifs <;> first | rfl | (exfalso; linarith)

/-- The head of the source's stable descending sort is exactly the spec's
first argmax. -/
theorem sortDesc_head (l : List (ModelResponse × ℚ)) :
    (Synthesizer.sortDesc l).head? = Synthesizer.firstArgmax l := by
  cases l with
  | nil => rfl
  | cons x xs =>
    rw [Synthesizer.sortDesc, foldl_insertDesc_head, List.foldl_cons]
    show xs.foldl headStep (some x) = _
    rw [foldl_headStep_some]
    rfl

/-- The first argmax dominates every score in the list. -/
theorem firstArgmax_max (l : List (ModelResponse × ℚ)) (p : ModelResponse × ℚ)
    (h : Synthesizer.firstArgmax l = some p) : ∀ q ∈ l, q.2 ≤ p.2 := by
  induction l generalizing p with
  | nil => cases h
  | cons x xs ih =>
    cases hza : Synthesizer.firstArgmax xs with
    | none =>
      have hxs : xs = [] := by
        cases xs with
        | nil => rfl
        | cons a as => simp [Synthesizer.firstArgmax] at hza
      subst hxs
      have hp : p = x := by
        rw [show Synthesizer.firstArgmax [x] = some x from rfl] at h
        injection h with h
        exact h.symm
      subst hp
      intro q hq
      rcases List.mem_singleton.mp hq with rfl
      exact le_refl _
    | some y =>
      have hmax := ih y hza
      have hp : p = if y.2 > x.2 then y else x := by
        rw [Synthesizer.firstArgmax, hza] at h
        injection h with h
        exact h.symm
      intro q hq
      rcases List.mem_cons.mp hq with rfl | hq'
      · rw [hp]
        split_ifs with hyx
        · linarith
        · exact le_refl _
      · have hqy := hmax q hq'
        rw [hp]
        split_ifs with hyx
        · exact hqy
        · have : y.2 ≤ x.2 := not_lt.mp hyx
          linarith

/-- C5: on a non-empty list, `synthesize` selects the first response
attaining the maximal score (the spec's argmax with ties broken by input
order), whose score dominates every response's score, and picks the
strategy by the first matching rule on consensus and the best score; on an
empty list it returns `none` with strategy `"no_responses"`. -/
theorem synthesize_selects_first_argmax (responses : List ModelResponse) (verify : Bool) :
    ((Synthesizer.synthesize [] verify).1 = none ∧
      (Synthesizer.synthesize [] verify).2.synthesis_strategy = "no_responses") ∧
    (responses ≠ [] →
      ∃ p, Synthesizer.firstArgmax (responses.map fun r => (r, Verifier.score_result r)) = some p ∧
        (Synthesizer.synthesize responses verify).1 = some p.1 ∧
        (∀ r ∈ responses, Verifier.score_result r ≤ p.2) ∧
        (Synthesizer.synthesize responses verify).2.synthesis_strategy =
          (if Verifier.check_consensus responses then "consensus"
           else if p.2 ≥ 8/10 then "high_confidence"
           else if p.2 ≥ 1/2 then "best_available"
           else "fallback")) := by
  refine ⟨⟨rfl, rfl⟩, ?_⟩
  intro hne
  have hie : responses.isEmpty = false := by
    cases responses
    · exact absurd rfl hne
    · rfl
  obtain ⟨p, hp⟩ :
      ∃ p, Synthesizer.firstArgmax (responses.map fun r => (r, Verifier.score_result r)) = some p := by
    cases responses with
    | nil => exact absurd rfl hne
    | cons a as => exact ⟨_, rfl⟩
  have hhead : (Synthesizer.sortDesc (responses.map fun r => (r, Verifier.score_result r))).head? =
      some p := by
    rw [sortDesc_head, hp]
  obtain ⟨tl, hsort⟩ :
      ∃ tl, Synthesizer.sortDesc (responses.map fun r => (r, Verifier.score_result r)) = p :: tl := by
    cases hs : Synthesizer.sortDesc (responses.map fun r => (r, Verifier.score_result r)) with
    | nil => rw [hs] at hhead; cases hhead
    | cons a tl =>
      rw [hs] at hhead
      injection hhead with h
      exact ⟨tl, by rw [h]⟩
  refine ⟨p, hp, ?_, ?_, ?_⟩
  · simp only [Synthesizer.synthesize, hie, Bool.false_eq_true, if_false, hsort]
  · intro r hr
    have hmem : (r, Verifier.score_result r) ∈ responses.map fun r => (r, Verifier.score_result r) :=
      List.mem_map_of_mem _ hr
    exact firstArgmax_max _ p hp _ hmem
  · simp only [Synthesizer.synthesize, hie, Bool.false_eq_true, if_false, hsort]

/-- C5 witness: the synthesis theorem applied to a concrete singleton
list. -/
theorem synthesize_selects_first_argmax_witness :
    ∃ p, Synthesizer.firstArgmax ([respAllSuccess].map fun r => (r, Verifier.score_result r)) =
        some p ∧
      (Synthesizer.synthesize [respAllSuccess] true).1 = some p.1 ∧
      (∀ r ∈ [respAllSuccess], Verifier.score_result r ≤ p.2) ∧
      (Synthesizer.synthesize [respAllSuccess] true).2.synthesis_strategy =
        (if Verifier.check_consensus [respAllSuccess] then "consensus"
         else if p.2 ≥ 8/10 then "high_confidence"
         else if p.2 ≥ 1/2 then "best_available"
         else "fallback") :=
  (synthesize_selects_first_argmax [respAllSuccess] true).2 (by simp)

/-! ## C9 and C10: the healing pass -/

/-- The decision one healing iteration takes at index `i`, given the block
count and the execution result found there: `none` when nothing is
replaced, `some (new_block, new_result)` when both positions are rewritten. -/
def healChoice (env : HealEnv) (blen : Nat) (res : Option ExecutionResult) (i : Nat) :
    Option (CodeBlock × ExecutionResult) :=
  match res with
  | none => none
  | some result =>
    if !result.success && result.stderr ≠ "" then
      if env.providerFound && decide (i < blen) then
        match Healer.heal_code (env.completion i) env.executableBlocks with
        | none => none
        | some fixed_code =>
          if fixed_code ≠ "" then
            match env.reExec i with
            | .error _ => none
            | .ok new_result => some ({ language := "python", code := fixed_code }, new_result)
          else none
      else none
    else none

/-- One healing iteration either leaves the state alone or rewrites exactly
position `i` of both lists, according to `healChoice`. -/
theorem healStep_eq (env : HealEnv) (st : List CodeBlock × List ExecutionResult) (i : Nat) :
    healStep env st i =
      match healChoice env st.1.length (st.2.get? i) i with
      | none => st
      | some (nb, nr) => (st.1.set i nb, st.2.set i nr) := by
  cases hres : st.2.get? i with
  | none => simp only [healStep, healChoice, hres]
  | some result =>
    simp only [healStep, healChoice, hres]
    by_cases h1 : (!result.success && decide (result.stderr ≠ "")) = true
    · rw [if_pos h1, if_pos h1]
      by_cases h2 : (env.providerFound && decide (i < st.1.length)) = true
      · rw [if_pos h2, if_pos h2]
        cases hh : Healer.heal_code (env.completion i) env.executableBlocks with
        | none => rfl
        | some fc =>
          dsimp only
          by_cases h3 : fc ≠ ""
          · rw [if_pos h3, if_pos h3]
            cases hre : env.reExec i with
            | error e => rfl
            | ok nr => rfl
          · rw [if_neg h3, if_neg h3]
      · rw [if_neg h2, if_neg h2]
    · rw [if_neg h1, if_neg h1]

/-- What a `some` healing decision implies about its inputs and outputs. -/
theorem healChoice_some (env : HealEnv) (blen : Nat) (res : Option ExecutionResult) (i : Nat)
    (nb : CodeBlock) (nr : ExecutionResult)
    (h : healChoice env blen res i = some (nb, nr)) :
    (∃ result, res = some result ∧ result.success = false ∧ result.stderr ≠ "") ∧
    env.providerFound = true ∧ i < blen ∧
    ∃ fixed_code, Healer.heal_code (env.completion i) env.executableBlocks = some fixed_code ∧
      fixed_code ≠ "" ∧ nb = { language := "python", code := fixed_code } ∧
      env.reExec i = .ok nr := by
  cases res with
  | none => simp [healChoice] at h
  | some result =>
    simp only [healChoice] at h
    by_cases h1 : (!result.success && decide (result.stderr ≠ "")) = true
    swap
    · rw [if_neg h1] at h
      cases h
    rw [if_pos h1] at h
    simp only [Bool.and_eq_true, Bool.not_eq_true', decide_eq_true_eq] at h1
    by_cases h2 : (env.providerFound && decide (i < blen)) = true
    swap
    · rw [if_neg h2] at h
      cases h
    rw [if_pos h2] at h
    simp only [Bool.and_eq_true, decide_eq_true_eq] at h2
    cases hheal : Healer.heal_code (env.completion i) env.executableBlocks with
    | none => rw [hheal] at h; cases h
    | some fixed_code =>
      rw [hheal] at h
      dsimp only at h
      by_cases h3 : fixed_code ≠ ""
      swap
      · rw [if_neg h3] at h
        cases h
      rw [if_pos h3] at h
      cases hre : env.reExec i with
      | error e => rw [hre] at h; cases h
      | ok new_result =>
        rw [hre] at h
        dsimp only at h
        injection h with h
        have hnb : nb = { language := "python", code := fixed_code } :=
          (congrArg Prod.fst h).symm
        have hnr : nr = new_result := (congrArg Prod.snd h).symm
        subst hnb
        subst hnr
        exact ⟨⟨result, rfl, h1.1, h1.2⟩, h2.1, h2.2, fixed_code, rfl, h3, rfl, rfl⟩

/-- The final per-index contents of the healing pass, computed from the
original lists. -/
def healAt (env : HealEnv) (blocks : List CodeBlock) (results : List ExecutionResult)
    (i : Nat) : Option CodeBlock × Option ExecutionResult :=
  match healChoice env blocks.length (results.get? i) i with
  | none => (blocks.get? i, results.get? i)
  | some (nb, nr) => (some nb, some nr)

/-- The healing fold preserves both lengths, leaves unprocessed indices
untouched, and rewrites each processed index according to the decision
taken on the original contents — each index is decided exactly once. -/
theorem healFold_spec (env : HealEnv) (blocks : List CodeBlock)
    (results : List ExecutionResult) (n : Nat) :
    ((List.range n).foldl (healStep env) (blocks, results)).1.length = blocks.length ∧
    ((List.range n).foldl (healStep env) (blocks, results)).2.length = results.length ∧
    (∀ i, n ≤ i →
      ((List.range n).foldl (healStep env) (blocks, results)).1.get? i = blocks.get? i ∧
      ((List.range n).foldl (healStep env) (blocks, results)).2.get? i = results.get? i) ∧
    (∀ i, i < n →
      ((List.range n).foldl (healStep env) (blocks, results)).1.get? i =
        (healAt env blocks results i).1 ∧
      ((List.range n).foldl (healStep env) (blocks, results)).2.get? i =
        (healAt env blocks results i).2) := by
  induction n with
  | zero =>
    exact ⟨rfl, rfl, fun i _ => ⟨rfl, rfl⟩, fun i hi => absurd hi (Nat.not_lt_zero i)⟩
  | succ n ih =>
    obtain ⟨ih1, ih2, ihge, ihlt⟩ := ih
    have hfold : (List.range (n+1)).foldl (healStep env) (blocks, results) =
        healStep env ((List.range n).foldl (healStep env) (blocks, results)) n := by
      rw [List.range_succ, List.foldl_append, List.foldl_cons, List.foldl_nil]
    obtain ⟨hbn, hrn⟩ := ihge n (le_refl n)
    rw [hfold, healStep_eq, ih1, hrn]
    cases hch : healChoice env blocks.length (results.get? n) n with
    | none =>
      dsimp only
      refine ⟨ih1, ih2, fun i hi => ihge i (Nat.le_of_succ_le hi), ?_⟩
      intro i hi
      rcases Nat.lt_succ_iff_lt_or_eq.mp hi with hlt | rfl
      · exact ihlt i hlt
      · simp only [healAt, hch]
        exact ⟨hbn, hrn⟩
    | some p =>
      obtain ⟨nb, nr⟩ := p
      dsimp only
      obtain ⟨⟨result, hres, -, -⟩, -, hblen, -⟩ :=
        healChoice_some env blocks.length (results.get? n) n nb nr hch
      obtain ⟨hrlen, -⟩ := List.get?_eq_some.mp hres
      refine ⟨?_, ?_, ?_, ?_⟩
      · rw [List.length_set]
        exact ih1
      · rw [List.length_set]
        exact ih2
      · intro i hi
        have hne : n ≠ i := by omega
        rw [List.get?_set_ne _ _ hne, List.get?_set_ne _ _ hne]
        exact ihge i (by omega)
      · intro i hi
        rcases Nat.lt_succ_iff_lt_or_eq.mp hi with hlt | rfl
        · have hne : n ≠ i := by omega
          rw [List.get?_set_ne _ _ hne, List.get?_set_ne _ _ hne]
          exact ihlt i hlt
        · simp only [healAt, hch]
          constructor
          · exact List.get?_set_eq_of_lt _ (ih1 ▸ hblen)
          · exact List.get?_set_eq_of_lt _ (ih2 ▸ hrlen)

/-- The healing decision is `none` when the execution succeeded or left no
stderr. -/
theorem healChoice_none_of_ok (env : HealEnv) (blen : Nat) (result : ExecutionResult)
    (i : Nat) (h : result.success = true ∨ result.stderr = "") :
    healChoice env blen (some result) i = none := by
  rcases h with hs | he
  · simp [healChoice, hs]
  · simp [healChoice, he]

/-- The healing decision is `none` when `heal_code` produced no fix. -/
theorem healChoice_none_of_heal_none (env : HealEnv) (blen : Nat)
    (result : ExecutionResult) (i : Nat)
    (hheal : Healer.heal_code (env.completion i) env.executableBlocks = none) :
    healChoice env blen (some result) i = none := by
  simp only [healChoice]
  split_ifs <;> simp [hheal]

/-- The healing decision is `none` when the re-execution of the fix
raised. -/
theorem healChoice_none_of_reExec_error (env : HealEnv) (blen : Nat)
    (result : ExecutionResult) (i : Nat) (e : String)
    (hre : env.reExec i = .error e) :
    healChoice env blen (some result) i = none := by
  simp only [healChoice]
  split_ifs with h1 h2 <;>
    (try rfl) <;>
    cases hheal : Healer.heal_code (env.completion i) env.executableBlocks <;>
    simp [hre]

/-- The healing decision when every condition holds: replace with the
python-labelled fix block and the re-execution result. -/
theorem healChoice_some_of_all (env : HealEnv) (blen : Nat) (result : ExecutionResult)
    (i : Nat) (fixed_code : String) (new_result : ExecutionResult)
    (hsucc : result.success = false) (hstderr : result.stderr ≠ "")
    (hpf : env.providerFound = true) (hilen : i < blen)
    (hheal : Healer.heal_code (env.completion i) env.executableBlocks = some fixed_code)
    (hfc : fixed_code ≠ "") (hre : env.reExec i = .ok new_result) :
    healChoice env blen (some result) i =
      some ({ language := "python", code := fixed_code }, new_result) := by
  simp [healChoice, hsucc, hstderr, hpf, hilen, hheal, hfc, hre]

/-- C9: for each index `i` whose execution result failed with non-empty
stderr, the healing pass takes exactly one decision from the original
contents: a heal that produced nothing (provider call raised, empty reply
text, or no executable block) or a raising re-execution leaves
`code_blocks[i]` and `execution_results[i]` exactly as they were, while a
produced-and-re-executed fix candidate replaces both positions in place —
whether or not the new execution succeeded; successful or stderr-free
results are never touched, and both list lengths are preserved. -/
theorem heal_at_most_once_in_place (env : HealEnv) (resp : ModelResponse) (i : Nat)
    (result : ExecutionResult)
    (hres : resp.execution_results.get? i = some result) :
    ((healResponse env resp).code_blocks.length = resp.code_blocks.length ∧
     (healResponse env resp).execution_results.length = resp.execution_results.length) ∧
    (result.success = true ∨ result.stderr = "" →
      (healResponse env resp).code_blocks.get? i = resp.code_blocks.get? i ∧
      (healResponse env resp).execution_results.get? i = some result) ∧
    (Healer.heal_code (env.completion i) env.executableBlocks = none →
      (healResponse env resp).code_blocks.get? i = resp.code_blocks.get? i ∧
      (healResponse env resp).execution_results.get? i = some result) ∧
    (∀ e, env.reExec i = .error e →
      (healResponse env resp).code_blocks.get? i = resp.code_blocks.get? i ∧
      (healResponse env resp).execution_results.get? i = some result) ∧
    (∀ fixed_code new_result, result.success = false → result.stderr ≠ "" →
      env.providerFound = true → i < resp.code_blocks.length →
      Healer.heal_code (env.completion i) env.executableBlocks = some fixed_code →
      fixed_code ≠ "" → env.reExec i = .ok new_result →
      (healResponse env resp).code_blocks.get? i =
        some { language := "python", code := fixed_code } ∧
      (healResponse env resp).execution_results.get? i = some new_result) := by
  have hlt : i < resp.execution_results.length := (List.get?_eq_some.mp hres).1
  obtain ⟨h1, h2, -, hidx⟩ :=
    healFold_spec env resp.code_blocks resp.execution_results resp.execution_results.length
  have hat := hidx i hlt
  refine ⟨⟨h1, h2⟩, ?_, ?_, ?_, ?_⟩
  · intro hok
    have hch := healChoice_none_of_ok env resp.code_blocks.length result i hok
    rw [show (healAt env resp.code_blocks resp.execution_results i) =
        (resp.code_blocks.get? i, resp.execution_results.get? i) by
      simp only [healAt, hres, hch]] at hat
    exact ⟨hat.1, hat.2.trans hres⟩
  · intro hheal
    have hch := healChoice_none_of_heal_none env resp.code_blocks.length result i hheal
    rw [show (healAt env resp.code_blocks resp.execution_results i) =
        (resp.code_blocks.get? i, resp.execution_results.get? i) by
      simp only [healAt, hres, hch]] at hat
    exact ⟨hat.1, hat.2.trans hres⟩
  · intro e hre
    have hch := healChoice_none_of_reExec_error env resp.code_blocks.length result i e hre
    rw [show (healAt env resp.code_blocks resp.execution_results i) =
        (resp.code_blocks.get? i, resp.execution_results.get? i) by
      simp only [healAt, hres, hch]] at hat
    exact ⟨hat.1, hat.2.trans hres⟩
  · intro fixed_code new_result hsucc hstderr hpf hilen hheal hfc hre
    have hch := healChoice_some_of_all env resp.code_blocks.length result i fixed_code
      new_result hsucc hstderr hpf hilen hheal hfc hre
    rw [show (healAt env resp.code_blocks resp.execution_results i) =
        (some { language := "python", code := fixed_code }, some new_result) by
      simp only [healAt, hres, hch]] at hat
    exact ⟨hat.1, hat.2⟩

/-- C10: whenever healing replaces the failing block at index `i`, the
stored replacement block has language `"python"` and carries the fix
candidate's code — regardless of the original block's language. -/
theorem heal_replacement_is_python (env : HealEnv) (resp : ModelResponse) (i : Nat)
    (result : ExecutionResult) (fixed_code : String) (new_result : ExecutionResult)
    (hres : resp.execution_results.get? i = some result)
    (hsucc : result.success = false) (hstderr : result.stderr ≠ "")
    (hpf : env.providerFound = true) (hilen : i < resp.code_blocks.length)
    (hheal : Healer.heal_code (env.completion i) env.executableBlocks = some fixed_code)
    (hfc : fixed_code ≠ "") (hre : env.reExec i = .ok new_result) :
    ∃ b, (healResponse env resp).code_blocks.get? i = some b ∧
      b.language = "python" ∧ b.code = fixed_code := by
  have hlt : i < resp.execution_results.length := (List.get?_eq_some.mp hres).1
  obtain ⟨-, -, -, hidx⟩ :=
    healFold_spec env resp.code_blocks resp.execution_results resp.execution_results.length
  have hat := (hidx i hlt).1
  have hch := healChoice_some_of_all env resp.code_blocks.length result i fixed_code
    new_result hsucc hstderr hpf hilen hheal hfc hre
  rw [show (healAt env resp.code_blocks resp.execution_results i).1 =
      some { language := "python", code := fixed_code } by
    simp only [healAt, hres, hch]] at hat
  exact ⟨_, hat, rfl, rfl⟩

/-! Fixtures for the healing witnesses: a failing javascript block healed
into a python fix that re-executes successfully. -/

def failJsBlock : CodeBlock := { language := "javascript", code := "console.log(x)" }

def failResult : ExecutionResult :=
  { success := false, exit_code := 1, stdout := "",
    stderr := "ReferenceError: x is not defined", execution_time := 1,
    error := some "Non-zero exit code" }

def healedResult : ExecutionResult :=
  { success := true, exit_code := 0, stdout := "1", stderr := "", execution_time := 1,
    error := none }

def healEnvFixture : HealEnv :=
  { completion := fun _ => .ok "fixed reply",
    executableBlocks := fun _ => [{ language := "python", code := "print(1)" }],
    providerFound := true,
    reExec := fun _ => .ok healedResult }

def failingResp : ModelResponse :=
  { model_name := "m", provider := "groq", text := "t", code_blocks := [failJsBlock],
    execution_results := [failResult], latency := 1, timestamp := 0, error := none }

/-- C9 witness: the in-place replacement case at index 0 of the concrete
failing response. -/
theorem heal_at_most_once_in_place_witness :
    (healResponse healEnvFixture failingResp).code_blocks.get? 0 =
      some { language := "python", code := "print(1)" } ∧
    (healResponse healEnvFixture failingResp).execution_results.get? 0 = some healedResult :=
  (heal_at_most_once_in_place healEnvFixture failingResp 0 failResult rfl).2.2.2.2
    "print(1)" healedResult rfl (by decide) rfl (by decide) rfl (by decide) rfl

/-- C10 witness: the replacement block for the failing javascript block is
python-labelled. -/
theorem heal_replacement_is_python_witness :
    ∃ b, (healResponse healEnvFixture failingResp).code_blocks.get? 0 = some b ∧
      b.language = "python" ∧ b.code = "print(1)" :=
  heal_replacement_is_python healEnvFixture failingResp 0 failResult "print(1)" healedResult
    rfl rfl (by decide) rfl (by decide) rfl (by decide) rfl

end Gateway
